import Mathlib

/-!
Verification development for the storybook generator
(`src/python/generate_storybook.py`).

Python strings are modelled as `List Char`, bytes as `List Nat`,
exceptions as `Except`/`Option`, and all I/O (console, network,
filesystem, sleeping) as an explicit trace of `Effect` values produced
alongside the pure result.  The external world (environment variable,
API responses, filesystem probes) is an `Env` record.
-/

/-- Convert a Lean string literal to the character-list representation
used for Python strings throughout this development. -/
def cs (s : String) : List Char := s.toList

/-- The double-quote character. -/
def qc : Char := Char.ofNat 34

/-- The backslash character. -/
def bsl : Char := Char.ofNat 92

/-- The single-quote character (used by Python `repr` of strings). -/
def sqChar : Char := Char.ofNat 39

/-- The backtick character. -/
def btick : Char := Char.ofNat 96

/-- The three-backtick markdown fence marker, `"```"` in the source. -/
def fenceChars : List Char := [btick, btick, btick]

/-- The newline separator used by `text.split("\n", 1)`. -/
def nlChars : List Char := ['\n']

/-- Whitespace as stripped by Python `str.strip()` (ASCII subset). -/
def isPyWs (c : Char) : Bool :=
  c == ' ' || c == '\t' || c == '\n' || c == '\r' ||
  c == Char.ofNat 11 || c == Char.ofNat 12

/-- Whitespace accepted between tokens by `json.loads`. -/
def isJsonWs (c : Char) : Bool :=
  c == ' ' || c == '\t' || c == '\n' || c == '\r'

/-- Python `s.lstrip()` (ASCII whitespace). -/
def pyLStrip (s : List Char) : List Char := s.dropWhile isPyWs

/-- Python `s.rstrip()` (ASCII whitespace). -/
def pyRStrip (s : List Char) : List Char :=
  (s.reverse.dropWhile isPyWs).reverse

/-- Python `s.strip()` (ASCII whitespace). -/
def pyStrip (s : List Char) : List Char := pyRStrip (pyLStrip s)

/-- Python `s.startswith(p)`. -/
def pyStartsWith (p s : List Char) : Bool := p.isPrefixOf s

/-- First occurrence of `sep` in `s`: `some (before, after)` when `sep`
occurs, `none` otherwise. -/
def findSplit (sep : List Char) : List Char → Option (List Char × List Char)
  | [] => if sep = [] then some ([], []) else none
  | c :: rest =>
    if sep.isPrefixOf (c :: rest) then some ([], (c :: rest).drop sep.length)
    else (findSplit sep rest).map (fun p => (c :: p.1, p.2))

/-- Python `s.split(sep, 1)` viewed through the `[1]` index the source
takes: `some after` when `sep` occurs, `none` when the resulting list
has a single element and indexing `[1]` raises `IndexError`. -/
def pySplitOnceAfter (sep s : List Char) : Option (List Char) :=
  (findSplit sep s).map (fun p => p.2)

/-- Python `s.rsplit(sep, 1)[0]`: everything before the last occurrence
of `sep`, or `s` itself when `sep` does not occur (then the list is
`[s]` and `[0]` is `s`). -/
def pyRsplitBefore (sep s : List Char) : List Char :=
  match findSplit sep.reverse s.reverse with
  | some p => p.2.reverse
  | none => s

/-- Python `s.replace(old, "")` for a single-character `old`. -/
def pyRemoveChar (c : Char) (s : List Char) : List Char :=
  s.filter (fun x => !(x == c))

/-- Accumulator worker for Python `s.split()` (split on whitespace
runs, dropping empty tokens). -/
def splitWsAux : List Char → List Char → List (List Char)
  | [], acc => if acc = [] then [] else [acc.reverse]
  | c :: rest, acc =>
    if isPyWs c then
      if acc = [] then splitWsAux rest []
      else acc.reverse :: splitWsAux rest []
    else splitWsAux rest (c :: acc)

/-- Python `s.split()` with no arguments. -/
def pySplitWs (s : List Char) : List (List Char) := splitWsAux s []

/-- Digit character for a value below ten. -/
def digitChar (d : Nat) : Char := Char.ofNat (48 + d)

/-- Fuel-driven decimal rendering worker. -/
def natToCharsAux : Nat → Nat → List Char
  | 0, _ => []
  | fuel + 1, n =>
    if n < 10 then [digitChar n]
    else natToCharsAux fuel (n / 10) ++ [digitChar (n % 10)]

/-- Decimal rendering of a natural number, as Python `str(n)`. -/
def natToChars (n : Nat) : List Char := natToCharsAux (n + 1) n

/-! ## JSON parsing (`json.loads` restricted to arrays of strings)

The source feeds the cleaned response to `json.loads` and then treats
the result as a list of sentence strings.  The model parses exactly
JSON arrays of JSON strings; any other input is a parse failure. -/

/-- Errors that `generate_story` can raise: the `IndexError` from
`text.split("\n", 1)[1]` on a fence with no newline, and the
`json.JSONDecodeError` from `json.loads`. -/
inductive StoryError where
  | indexError
  | jsonError
deriving DecidableEq

deriving instance DecidableEq for Except

/-- Skip JSON inter-token whitespace. -/
def skipWs (s : List Char) : List Char := s.dropWhile isJsonWs

/-- Value of a hexadecimal digit. -/
def hexVal (c : Char) : Option Nat :=
  if '0' ≤ c ∧ c ≤ '9' then some (c.toNat - 48)
  else if 'a' ≤ c ∧ c ≤ 'f' then some (c.toNat - 87)
  else if 'A' ≤ c ∧ c ≤ 'F' then some (c.toNat - 55)
  else none

/-- Single-character JSON escapes. -/
def escChar (e : Char) : Option Char :=
  if e = qc then some qc
  else if e = bsl then some bsl
  else if e = '/' then some '/'
  else if e = 'b' then some (Char.ofNat 8)
  else if e = 'f' then some (Char.ofNat 12)
  else if e = 'n' then some '\n'
  else if e = 'r' then some '\r'
  else if e = 't' then some '\t'
  else none

/-- Parse the body of a JSON string after the opening quote, returning
the decoded characters and the remainder after the closing quote. -/
def parseJStringBody : List Char → Option (List Char × List Char)
  | [] => none
  | c :: rest =>
    if c = qc then some ([], rest)
    else if c = bsl then
      match rest with
      | [] => none
      | e :: rest2 =>
        if e = 'u' then
          match rest2 with
          | h1 :: h2 :: h3 :: h4 :: rest3 =>
            match hexVal h1, hexVal h2, hexVal h3, hexVal h4 with
            | some a, some b, some c2, some d =>
              (parseJStringBody rest3).map
                (fun p => (Char.ofNat (((a * 16 + b) * 16 + c2) * 16 + d) :: p.1, p.2))
            | _, _, _, _ => none
          | _ => none
        else
          match escChar e with
          | some d => (parseJStringBody rest2).map (fun p => (d :: p.1, p.2))
          | none => none
    else if c.toNat < 32 then none
    else (parseJStringBody rest).map (fun p => (c :: p.1, p.2))

/-- Parse a JSON string, opening quote included. -/
def parseJString : List Char → Option (List Char × List Char)
  | [] => none
  | c :: rest => if c = qc then parseJStringBody rest else none

/-- Parse one or more comma-separated JSON strings followed by the
closing bracket of the array.  Fuel bounds the number of elements. -/
def parseItems : Nat → List Char → Option (List (List Char) × List Char)
  | 0, _ => none
  | fuel + 1, s =>
    match parseJString s with
    | none => none
    | some (str0, r2) =>
      match skipWs r2 with
      | [] => none
      | c :: r4 =>
        if c = ',' then (parseItems fuel (skipWs r4)).map (fun p => (str0 :: p.1, p.2))
        else if c = ']' then some ([str0], r4)
        else none

/-- `json.loads` restricted to arrays of strings: parse an entire text
as a JSON array of JSON strings, allowing surrounding whitespace. -/
def jsonLoadsStrList (s : List Char) : Except StoryError (List (List Char)) :=
  match skipWs s with
  | c :: r =>
    if c = '[' then
      match skipWs r with
      | d :: r2 =>
        if d = ']' then (if skipWs r2 = [] then .ok [] else .error .jsonError)
        else
          match parseItems (s.length + 1) (d :: r2) with
          | some p => if skipWs p.2 = [] then .ok p.1 else .error .jsonError
          | none => .error .jsonError
      | [] => .error .jsonError
    else .error .jsonError
  | [] => .error .jsonError

/-! ## base64 (`base64.b64decode`) -/

/-- Value of a base64 alphabet character. -/
def b64Val (c : Char) : Option Nat :=
  if 'A' ≤ c ∧ c ≤ 'Z' then some (c.toNat - 65)
  else if 'a' ≤ c ∧ c ≤ 'z' then some (c.toNat - 71)
  else if '0' ≤ c ∧ c ≤ '9' then some (c.toNat + 4)
  else if c = '+' then some 62
  else if c = '/' then some 63
  else none

/-- Decode groups of four 6-bit values into bytes; a trailing group of
two or three values yields one or two bytes. -/
def b64Chunks : List Nat → Option (List Nat)
  | [] => some []
  | a :: b :: c :: d :: rest =>
    (b64Chunks rest).map
      (fun bs =>
        (a * 4 + b / 16) :: ((b % 16) * 16 + c / 4) :: ((c % 4) * 64 + d) :: bs)
  | [a, b] => some [a * 4 + b / 16]
  | [a, b, c] => some [a * 4 + b / 16, (b % 16) * 16 + c / 4]
  | [_] => none

/-- Model of `base64.b64decode` with default validation: characters
outside the alphabet and `=` are discarded, padding must be trailing,
and the total kept length must be a multiple of four. -/
def b64decode (s : List Char) : Option (List Nat) :=
  let kept := s.filter (fun c => (b64Val c).isSome || c == '=')
  let body := kept.takeWhile (fun c => !(c == '='))
  let pad := kept.drop body.length
  if pad.all (fun c => c == '=') ∧ pad.length ≤ 2 ∧
      (body.length + pad.length) % 4 = 0 then
    b64Chunks (body.filterMap b64Val)
  else none

/-! ## Data model -/

/-- One page of the manifest (`page_data` in the source). -/
structure Page where
  page_number : Nat
  sentence : List Char
  words : List (List Char)
  image : Option (List Char)
deriving DecidableEq

/-- The manifest (`storybook_data` in the source). -/
structure Storybook where
  title : List Char
  description : List Char
  pages : List Page
deriving DecidableEq

/-- Payload of an inline image part: `bytes` or a base64 `str`. -/
inductive Payload where
  | bytes (b : List Nat)
  | str (s : List Char)
deriving DecidableEq

/-- One part of an image-generation response (`response.parts`
elements): an optional text field and optional inline data. -/
structure RespPart where
  text : Option (List Char)
  inline_data : Option Payload
deriving DecidableEq

/-- Observable side effects of a run, in execution order. -/
inductive Effect where
  | print (s : List Char)
  | mkdirOutput
  | netTextCall (contents : List Char)
  | netImageCall (contents : List Char) (index : Nat)
  | writeImage (path : List Char) (data : List Nat)
  | writeManifest (sb : Storybook)
  | sleep (seconds : Nat)
deriving DecidableEq

/-- Result of `create_storybook`: early return on missing credential,
an uncaught exception, or the returned manifest. -/
inductive RunResult where
  | configError
  | raised (e : StoryError)
  | ok (sb : Storybook)
deriving DecidableEq

/-- The external world: `GEMINI_API_KEY`, the text of the story
response, the parts (or raised exception message) of each image
response keyed by page index, and a filesystem-size oracle used by the
final verification report. -/
structure Env where
  apiKey : Option (List Char)
  storyResponseText : List Char
  imageResponses : Nat → Except (List Char) (List RespPart)
  fileSize : List Char → Option Nat

/-! ## Constants from the source -/

/-- `OUTPUT_DIR`, relative to the repository (the
`Path(__file__).parent.parent` prefix is abstracted away). -/
def OUTPUT_DIR : List Char := cs ("nextjs-app/public/storybook")

/-- `STORY_TEMPLATE`. -/
def STORY_TEMPLATE : List Char := cs ("\nCreate a children's storybook about Isaac Newton discovering gravity from a falling apple.\nThe story must have EXACTLY 6 sentences.\nEach sentence must have approximately 6 words (5-7 words maximum).\nUse simple words that a 5-7 year old can read.\nMake it engaging and fun for children.\nReturn the story as a JSON array of strings, one sentence per element.\nExample format: [\"Sentence one here.\", \"Sentence two here.\", ...]\nReturn ONLY the JSON array, no other text.\n")

/-- `IMAGE_PROMPT_TEMPLATE.format(sentence=sentence)`. -/
def imagePrompt (sentence : List Char) : List Char :=
  cs ("\nCreate a colorful, child-friendly illustration for a children's book.\nThe scene depicts: ") ++ sentence ++ cs ("\nStyle: Bright, cheerful watercolor illustration suitable for children ages 5-7.\nThe image should be simple, clear, and engaging with warm colors.\nShow Isaac Newton as a friendly young man with period-appropriate clothing.\nNo text in the image.\n")

/-- `f"scene_{index + 1}.png"` (with `n = index + 1`). -/
def sceneFileName (n : Nat) : List Char :=
  cs ("scene_") ++ natToChars n ++ cs (".png")

/-- Full path of the image file for page `n`. -/
def imagePathChars (n : Nat) : List Char :=
  OUTPUT_DIR ++ '/' :: sceneFileName n

/-- Message of the exception raised when no part carries image data. -/
def noImageMsg (n : Nat) : List Char :=
  cs ("No image generated for sentence ") ++ natToChars n

/-- Message of the `binascii.Error` raised by a failing `b64decode`. -/
def b64ErrMsg : List Char := cs ("Invalid base64-encoded string")

/-- Truthiness test of `if not GEMINI_API_KEY:` (`None` and the empty
string are falsy). -/
def keyFalsy (env : Env) : Bool :=
  match env.apiKey with
  | none => true
  | some k => k.isEmpty

/-! ## `generate_story` -/

/-- The parsing pipeline of `generate_story` applied to
`response.text`: strip, best-effort fence unwrap, `json.loads`.
`text.split("\n", 1)[1]` raises `IndexError` when the stripped text
has no newline. -/
def parseStoryText (respText : List Char) : Except StoryError (List (List Char)) :=
  let text := pyStrip respText
  if pyStartsWith fenceChars text then
    match pySplitOnceAfter nlChars text with
    | none => .error .indexError
    | some afterFirstLine => jsonLoadsStrList (pyRsplitBefore fenceChars afterFirstLine)
  else jsonLoadsStrList text

/-- Diagnostic line `f"  {i}. ({word_count} words) {sentence}"`. -/
def sentenceDiagMsg (i : Nat) (sentence : List Char) : List Char :=
  cs ("  ") ++ natToChars i ++ cs (". (") ++ natToChars (pySplitWs sentence).length
    ++ cs (" words) ") ++ sentence

/-- `generate_story`: one text-generation call, parse of its response,
diagnostics on success.  The parse error, if any, propagates to the
caller as an uncaught exception. -/
def generate_story (env : Env) : Except StoryError (List (List Char)) × List Effect :=
  let pre : List Effect := [.print (cs ("Generating story text...")), .netTextCall STORY_TEMPLATE]
  match parseStoryText env.storyResponseText with
  | .error e => (.error e, pre)
  | .ok story =>
    (.ok story,
      pre ++ .print (cs ("Generated ") ++ natToChars story.length ++ cs (" sentences:"))
        :: story.enum.map (fun p => .print (sentenceDiagMsg (p.1 + 1) p.2)))

/-! ## `generate_image` -/

/-- `if isinstance(image_data, str): image_data = base64.b64decode(image_data)`;
`bytes` payloads are written as-is. -/
def decodePayload : Payload → Option (List Nat)
  | .bytes b => some b
  | .str s => b64decode s

/-- The `for part in response.parts:` loop of `generate_image`: use the
first part whose `inline_data` is not `None`, write the (decoded)
bytes, return the bare filename; raise when no part has image data. -/
def imageLoop (parts : List RespPart) (index : Nat) : Except (List Char) (List Char) × List Effect :=
  match parts with
  | [] => (.error (noImageMsg (index + 1)), [])
  | p :: rest =>
    match p.inline_data with
    | none => imageLoop rest index
    | some d =>
      match decodePayload d with
      | none => (.error b64ErrMsg, [])
      | some data =>
        (.ok (sceneFileName (index + 1)),
          [.writeImage (imagePathChars (index + 1)) data,
           .print (cs ("  Saved: ") ++ imagePathChars (index + 1) ++ cs (" (")
             ++ natToChars data.length ++ cs (" bytes)"))])

/-- `generate_image`: progress print, one image-generation call (which
may itself raise), then the part scan. -/
def generate_image (env : Env) (sentence : List Char) (index : Nat) :
    Except (List Char) (List Char) × List Effect :=
  let pre : List Effect :=
    [.print (cs ("Generating image ") ++ natToChars (index + 1) ++ cs (" for: ")
       ++ sentence.take 50 ++ cs ("...")),
     .netImageCall (imagePrompt sentence) index]
  match env.imageResponses index with
  | .error m => (.error m, pre)
  | .ok parts =>
    let r := imageLoop parts index
    (r.1, pre ++ r.2)

/-! ## `create_storybook` -/

/-- Word extraction of the source:
`sentence.replace(".", "").replace(",", "").replace("!", "").replace("?", "").split()`. -/
def pyWords (sentence : List Char) : List (List Char) :=
  pySplitWs (pyRemoveChar '?' (pyRemoveChar '!' (pyRemoveChar ',' (pyRemoveChar '.' sentence))))

/-- The manifest title constant. -/
def titleChars : List Char := cs ("Newton and the Apple")

/-- The manifest description constant. -/
def descChars : List Char := cs ("Learn how Isaac Newton discovered gravity!")

/-- The `for i, sentence in enumerate(story):` loop: per page, attempt
the image (recovering from any exception with a `None` image), derive
the words, append the page, sleep two seconds. `n` is `len(story)`. -/
def processLoop (env : Env) (n : Nat) : Nat → List (List Char) → List Page × List Effect
  | _, [] => ([], [])
  | i, sentence :: rest =>
    let gi := generate_image env sentence i
    let imgOpt : Option (List Char) :=
      match gi.1 with
      | .ok f => some f
      | .error _ => none
    let warnEffs : List Effect :=
      match gi.1 with
      | .ok _ => []
      | .error m => [.print (cs ("  Warning: Could not generate image: ") ++ m)]
    let page : Page :=
      { page_number := i + 1, sentence := sentence, words := pyWords sentence, image := imgOpt }
    let restR := processLoop env n (i + 1) rest
    (page :: restR.1,
      .print (cs ("\nProcessing page ") ++ natToChars (i + 1) ++ cs ("/") ++ natToChars n ++ cs ("..."))
        :: gi.2 ++ warnEffs ++ .sleep 2 :: restR.2)

/-- Python `repr` of a list of strings, as printed for `words`. -/
def pyReprStrList (ws : List (List Char)) : List Char :=
  '[' :: List.intercalate (cs (", ")) (ws.map (fun w => sqChar :: w ++ [sqChar])) ++ [']']

/-- The per-page block of the final verification report. -/
def pageReport (env : Env) (page : Page) : List Effect :=
  [.print (cs ("\nPage ") ++ natToChars page.page_number ++ cs (":")),
   .print (cs ("  Sentence: ") ++ page.sentence),
   .print (cs ("  Words: ") ++ pyReprStrList page.words),
   .print (cs ("  Image: ") ++ (match page.image with | none => cs ("None") | some img => img))]
  ++ (match page.image with
      | none => []
      | some img =>
        if img = [] then []
        else
          match env.fileSize (OUTPUT_DIR ++ '/' :: img) with
          | some sz => [.print (cs ("  Image exists: Yes (") ++ natToChars sz ++ cs (" bytes)"))]
          | none => [.print (cs ("  Image exists: NO - MISSING!"))])

/-- Report blocks for all pages. -/
def pagesReport (env : Env) : List Page → List Effect
  | [] => []
  | p :: rest => pageReport env p ++ pagesReport env rest

/-- A line of fifty equals signs. -/
def eqLine : List Char := List.replicate 50 '='

/-- The whole verification report of `create_storybook`. -/
def reportEffs (env : Env) (sb : Storybook) : List Effect :=
  .print ('\n' :: eqLine) :: .print (cs ("STORYBOOK VERIFICATION")) :: .print eqLine
    :: .print (cs ("Title: ") ++ sb.title)
    :: .print (cs ("Total pages: ") ++ natToChars sb.pages.length)
    :: pagesReport env sb.pages
    ++ [.print ('\n' :: eqLine), .print (cs ("Storybook generation complete!")), .print eqLine]

/-- Warning printed when the story length is outside five to six. -/
def lengthWarnMsg (n : Nat) : List Char :=
  cs ("WARNING: Story has ") ++ natToChars n ++ cs (" sentences, expected 5-6")

/-- `create_storybook`: credential check, output directory creation,
story generation, advisory length check, page loop, manifest write,
verification report. -/
def create_storybook (env : Env) : RunResult × List Effect :=
  if keyFalsy env then
    (.configError,
      [.print (cs ("ERROR: Please set GEMINI_API_KEY environment variable")),
       .print (cs ("Usage: GEMINI_API_KEY=your_key python generate_storybook.py"))])
  else
    match generate_story env with
    | (.error e, effs) => (.raised e, .mkdirOutput :: effs)
    | (.ok story, effs) =>
      let warn : List Effect :=
        if story.length < 5 || 6 < story.length then [.print (lengthWarnMsg story.length)] else []
      let loopR := processLoop env story.length 0 story
      let sb : Storybook := { title := titleChars, description := descChars, pages := loopR.1 }
      (.ok sb,
        .mkdirOutput :: effs ++ warn ++ loopR.2
          ++ .writeManifest sb
            :: .print (cs ("\nStorybook data saved to: ") ++ OUTPUT_DIR ++ cs ("/storybook.json"))
            :: reportEffs env sb)

/-! ## Specification-side helper definitions -/

/-- Punctuation stripping as the spec words it: remove every
occurrence of the four characters in one pass. -/
def stripPunct (s : List Char) : List Char :=
  s.filter (fun c => !(c == '.') && !(c == ',') && !(c == '!') && !(c == '?'))

/-- The page record the loop is expected to append for sentence `s` at
index `i`. -/
def pageFor (env : Env) (i : Nat) (s : List Char) : Page :=
  { page_number := i + 1, sentence := s, words := pyWords s,
    image := match (generate_image env s i).1 with | .ok f => some f | .error _ => none }

/-- Expected pages for a story, starting at index `i`. -/
def pagesSpec (env : Env) : Nat → List (List Char) → List Page
  | _, [] => []
  | i, s :: rest => pageFor env i s :: pagesSpec env (i + 1) rest

/-- First inline payload in a part list, as the spec describes the
response scan. -/
def firstInline : List RespPart → Option Payload
  | [] => none
  | p :: rest =>
    match p.inline_data with
    | some d => some d
    | none => firstInline rest

/-- Effects that mark the scheduling structure of the loop: one image
request per page and the fixed sleeps. -/
def isMarker : Effect → Bool
  | .netImageCall _ _ => true
  | .sleep _ => true
  | _ => false

/-- Sleep effects. -/
def isSleepEff : Effect → Bool
  | .sleep _ => true
  | _ => false

/-- Network or filesystem effects (anything beyond console output and
sleeping). -/
def isNetOrFs : Effect → Bool
  | .netTextCall _ => true
  | .netImageCall _ _ => true
  | .mkdirOutput => true
  | .writeImage _ _ => true
  | .writeManifest _ => true
  | _ => false

/-- The expected marker trace of the loop: for each page one image
request followed by one two-second sleep, the final page included. -/
def markerBlocks : Nat → List (List Char) → List Effect
  | _, [] => []
  | i, s :: rest => .netImageCall (imagePrompt s) i :: .sleep 2 :: markerBlocks (i + 1) rest

/-- Wrap a text in a fenced code block: three backticks and a language
tag on the first line, the text, and a closing fence on its own line. -/
def fenceWrap (lang t : List Char) : List Char :=
  fenceChars ++ lang ++ '\n' :: (t ++ '\n' :: fenceChars)

/-- Canonical JSON text of a string (no escapes needed for safe
characters). -/
def jsonEncodeStr (s : List Char) : List Char := qc :: (s ++ [qc])

/-- Canonical JSON text of the elements of a string array. -/
def jsonEncodeInner : List (List Char) → List Char
  | [] => []
  | [s] => jsonEncodeStr s
  | s :: rest => jsonEncodeStr s ++ ',' :: jsonEncodeInner rest

/-- Canonical JSON text of an array of strings. -/
def jsonEncodeArr (ss : List (List Char)) : List Char :=
  '[' :: (jsonEncodeInner ss ++ [']'])

/-- Characters that serialize to JSON without escaping. -/
def safeChar (c : Char) : Bool :=
  !(c == qc) && !(c == bsl) && decide (32 ≤ c.toNat)

/-! ## Whitespace and stripping lemmas -/

theorem skipWs_cons_nonws {c : Char} (s : List Char) (h : isJsonWs c = false) :
    skipWs (c :: s) = c :: s := by
  simp [skipWs, List.dropWhile_cons, h]

theorem skipWs_nil_of_all {s : List Char} (h : s.all isJsonWs) : skipWs s = [] := by
  induction s with
  | nil => rfl
  | cons c rest ih =>
    simp only [List.all_cons, Bool.and_eq_true] at h
    unfold skipWs
    rw [List.dropWhile_cons, if_pos h.1]
    exact ih h.2

theorem pyLStrip_cons_nonws {c : Char} (s : List Char) (h : isPyWs c = false) :
    pyLStrip (c :: s) = c :: s := by
  simp [pyLStrip, List.dropWhile_cons, h]

theorem pyStrip_eq_self_of {s : List Char} {c1 c2 : Char}
    (h1 : s.head? = some c1) (hc1 : isPyWs c1 = false)
    (h2 : s.getLast? = some c2) (hc2 : isPyWs c2 = false) :
    pyStrip s = s := by
  have hl : pyLStrip s = s := by
    cases s with
    | nil => simp at h1
    | cons a as =>
      simp only [List.head?_cons, Option.some.injEq] at h1
      exact pyLStrip_cons_nonws as (h1 ▸ hc1)
  have hr : pyRStrip s = s := by
    unfold pyRStrip
    have hrev : s.reverse.head? = some c2 := by
      rw [List.head?_reverse]; exact h2
    cases hrv : s.reverse with
    | nil => rw [hrv] at hrev; simp at hrev
    | cons b bs =>
      rw [hrv] at hrev
      simp only [List.head?_cons, Option.some.injEq] at hrev
      have hb : isPyWs b = false := by rw [hrev]; exact hc2
      have hb' : ¬(isPyWs b = true) := by simp [hb]
      rw [List.dropWhile_cons, if_neg hb', ← hrv, List.reverse_reverse]
  unfold pyStrip
  rw [hl, hr]

/-! ## `findSplit` lemmas -/

theorem findSplit_single_not_mem {c : Char} {s : List Char} (h : c ∉ s) :
    findSplit [c] s = none := by
  induction s with
  | nil => simp [findSplit]
  | cons x xs ih =>
    have hxc : ¬([c].isPrefixOf (x :: xs) = true) := by
      simp only [List.isPrefixOf, Bool.and_eq_true, beq_iff_eq]
      intro hcontra
      exact h (hcontra.1 ▸ List.mem_cons_self x xs)
    simp only [findSplit, hxc, if_false, Bool.false_eq_true]
    rw [ih (fun hm => h (List.mem_cons_of_mem x hm))]
    rfl

theorem findSplit_single_append {c : Char} {a : List Char} (b : List Char) (h : c ∉ a) :
    findSplit [c] (a ++ c :: b) = some (a, b) := by
  induction a with
  | nil =>
    have hpre : [c].isPrefixOf (c :: b) = true := by simp [List.isPrefixOf]
    simp [findSplit, hpre]
  | cons x a' ih =>
    have hxc : ¬([c].isPrefixOf (x :: (a' ++ c :: b)) = true) := by
      simp only [List.isPrefixOf, Bool.and_eq_true, beq_iff_eq]
      intro hcontra
      exact h (hcontra.1 ▸ List.mem_cons_self x a')
    simp only [List.cons_append, findSplit, List.append_eq]
    rw [if_neg hxc, ih (fun hm => h (List.mem_cons_of_mem x hm))]
    rfl

theorem findSplit_fence_at_head (s : List Char) :
    findSplit fenceChars (btick :: btick :: btick :: s) = some ([], s) := by
  have hpre : fenceChars.isPrefixOf (btick :: btick :: btick :: s) = true := by
    simp [fenceChars, List.isPrefixOf]
  cases s with
  | nil => simp [findSplit, hpre, fenceChars]
  | cons x xs => simp [findSplit, hpre, fenceChars]

theorem pyRsplitBefore_trailing_fence (t : List Char) :
    pyRsplitBefore fenceChars (t ++ '\n' :: fenceChars) = t ++ ['\n'] := by
  have hfr : fenceChars.reverse = fenceChars := by decide
  have hrev : (t ++ '\n' :: fenceChars).reverse
      = btick :: btick :: btick :: ('\n' :: t.reverse) := by
    simp [fenceChars, List.reverse_append]
  unfold pyRsplitBefore
  rw [hfr, hrev, findSplit_fence_at_head]
  simp

/-! ## JSON round-trip lemmas -/

theorem parseJStringBody_safe_step (c : Char) (s' ext : List Char) (h1 : c ≠ qc)
    (h2 : c ≠ bsl) (h4 : ¬ c.toNat < 32) :
    parseJStringBody (c :: (s' ++ qc :: ext))
      = (parseJStringBody (s' ++ qc :: ext)).map (fun p => (c :: p.1, p.2)) := by
  conv_lhs => unfold parseJStringBody
  rw [if_neg h1, if_neg h2, if_neg h4]

theorem parseJStringBody_safe (s ext : List Char) (h : s.all safeChar = true) :
    parseJStringBody (s ++ qc :: ext) = some (s, ext) := by
  induction s with
  | nil =>
    simp only [List.nil_append]
    unfold parseJStringBody
    simp
  | cons c s' ih =>
    simp only [List.all_cons, Bool.and_eq_true] at h
    obtain ⟨hc, hs'⟩ := h
    simp only [safeChar, Bool.and_eq_true, Bool.not_eq_true', beq_eq_false_iff_ne,
      decide_eq_true_eq] at hc
    obtain ⟨⟨h1, h2⟩, h3⟩ := hc
    have h4 : ¬(c.toNat < 32) := by omega
    rw [List.cons_append, parseJStringBody_safe_step c s' ext h1 h2 h4, ih hs']
    rfl

theorem parseJString_encode (s ext : List Char) (h : s.all safeChar = true) :
    parseJString (jsonEncodeStr s ++ ext) = some (s, ext) := by
  have hshape : jsonEncodeStr s ++ ext = qc :: (s ++ qc :: ext) := by
    simp [jsonEncodeStr]
  have hstep : parseJString (qc :: (s ++ qc :: ext)) = parseJStringBody (s ++ qc :: ext) := by
    unfold parseJString
    simp
  rw [hshape, hstep]
  exact parseJStringBody_safe s ext h

theorem parseItems_encode (ss : List (List Char)) : ∀ (fuel : Nat) (ext : List Char),
    ss ≠ [] → ss.all (fun s => s.all safeChar) = true → ss.length ≤ fuel →
    parseItems fuel (jsonEncodeInner ss ++ ']' :: ext) = some (ss, ext) := by
  induction ss with
  | nil => intro fuel ext hne _ _; exact absurd rfl hne
  | cons s rest ih =>
    intro fuel ext _ hsafe hlen
    simp only [List.all_cons, Bool.and_eq_true] at hsafe
    obtain ⟨hs, hrest⟩ := hsafe
    cases fuel with
    | zero => simp at hlen
    | succ f =>
      cases rest with
      | nil =>
        show parseItems (f + 1) (jsonEncodeStr s ++ ']' :: ext) = some ([s], ext)
        unfold parseItems
        rw [parseJString_encode s (']' :: ext) hs]
        have hsk : skipWs (']' :: ext) = ']' :: ext := skipWs_cons_nonws ext (by decide)
        simp [hsk]
      | cons s2 rest' =>
        have hinner : jsonEncodeInner (s :: s2 :: rest')
            = jsonEncodeStr s ++ ',' :: jsonEncodeInner (s2 :: rest') := rfl
        rw [hinner]
        have hshape : (jsonEncodeStr s ++ ',' :: jsonEncodeInner (s2 :: rest')) ++ ']' :: ext
            = jsonEncodeStr s ++ (',' :: (jsonEncodeInner (s2 :: rest') ++ ']' :: ext)) := by
          simp [List.append_assoc]
        rw [hshape]
        unfold parseItems
        rw [parseJString_encode s _ hs]
        have hsk : skipWs (',' :: (jsonEncodeInner (s2 :: rest') ++ ']' :: ext))
            = ',' :: (jsonEncodeInner (s2 :: rest') ++ ']' :: ext) :=
          skipWs_cons_nonws _ (by decide)
        obtain ⟨t, ht⟩ : ∃ t, jsonEncodeInner (s2 :: rest') = qc :: t := by
          cases rest' <;> exact ⟨_, rfl⟩
        have hsk2 : skipWs (jsonEncodeInner (s2 :: rest') ++ ']' :: ext)
            = jsonEncodeInner (s2 :: rest') ++ ']' :: ext := by
          rw [ht]
          exact skipWs_cons_nonws _ (by decide)
        have hih := ih f ext (by simp) hrest (by simp only [List.length_cons] at hlen ⊢; omega)
        simp [hsk, hsk2, hih]

theorem jsonEncodeInner_length (ss : List (List Char)) :
    ss.length ≤ (jsonEncodeInner ss).length + 1 := by
  induction ss with
  | nil => simp [jsonEncodeInner]
  | cons s rest ih =>
    cases rest with
    | nil => simp [jsonEncodeInner, jsonEncodeStr]
    | cons s2 rest' =>
      have hinner : jsonEncodeInner (s :: s2 :: rest')
          = jsonEncodeStr s ++ ',' :: jsonEncodeInner (s2 :: rest') := rfl
      rw [hinner]
      simp only [List.length_cons, List.length_append, jsonEncodeStr] at ih ⊢
      omega

theorem jsonLoads_encode_trailing (ss : List (List Char)) (ws : List Char)
    (hsafe : ss.all (fun s => s.all safeChar) = true) (hws : ws.all isJsonWs = true) :
    jsonLoadsStrList (jsonEncodeArr ss ++ ws) = .ok ss := by
  have hshape : jsonEncodeArr ss ++ ws = '[' :: (jsonEncodeInner ss ++ (']' :: ws)) := by
    simp [jsonEncodeArr]
  rw [hshape]
  unfold jsonLoadsStrList
  have hsk1 : skipWs ('[' :: (jsonEncodeInner ss ++ (']' :: ws)))
      = '[' :: (jsonEncodeInner ss ++ (']' :: ws)) := skipWs_cons_nonws _ (by decide)
  rw [hsk1]
  cases ss with
  | nil =>
    have hsk2 : skipWs (jsonEncodeInner [] ++ ']' :: ws) = ']' :: ws := by
      show skipWs (']' :: ws) = ']' :: ws
      exact skipWs_cons_nonws _ (by decide)
    simp [hsk2, skipWs_nil_of_all hws]
  | cons s rest =>
    obtain ⟨t, ht⟩ : ∃ t, jsonEncodeInner (s :: rest) = qc :: t := by
      cases rest <;> exact ⟨_, rfl⟩
    have hsk2 : skipWs (jsonEncodeInner (s :: rest) ++ ']' :: ws)
        = jsonEncodeInner (s :: rest) ++ ']' :: ws := by
      rw [ht]; exact skipWs_cons_nonws _ (by decide)
    have hlen : (s :: rest).length
        ≤ ('[' :: (jsonEncodeInner (s :: rest) ++ (']' :: ws))).length + 1 := by
      have hb := jsonEncodeInner_length (s :: rest)
      simp only [List.length_cons, List.length_append] at hb ⊢
      omega
    generalize hF : ('[' :: (jsonEncodeInner (s :: rest) ++ (']' :: ws))).length + 1 = F
    have hlenF : (s :: rest).length ≤ F := by rw [← hF]; exact hlen
    have hpi := parseItems_encode (s :: rest) F ws (by simp) hsafe hlenF
    have hq1 : ¬(qc = ']') := by decide
    simp only [ht, List.cons_append] at hsk2 hpi ⊢
    simp [hsk2, hpi, hq1, skipWs_nil_of_all hws]

theorem parseStoryText_encode_plain (ss : List (List Char))
    (hsafe : ss.all (fun s => s.all safeChar) = true) :
    parseStoryText (jsonEncodeArr ss) = .ok ss := by
  have hstrip : pyStrip (jsonEncodeArr ss) = jsonEncodeArr ss := by
    apply @pyStrip_eq_self_of (jsonEncodeArr ss) '[' ']'
    · rfl
    · decide
    · show (('[' :: jsonEncodeInner ss) ++ [']']).getLast? = some ']'
      exact List.getLast?_concat _
    · decide
  have hb : (btick == '[') = false := by decide
  have hsw : pyStartsWith fenceChars (jsonEncodeArr ss) = false := by
    show pyStartsWith fenceChars ('[' :: (jsonEncodeInner ss ++ [']'])) = false
    simp [pyStartsWith, fenceChars, List.isPrefixOf, hb]
  have hload : jsonLoadsStrList (jsonEncodeArr ss) = .ok ss := by
    have h := jsonLoads_encode_trailing ss [] hsafe (by decide)
    rwa [List.append_nil] at h
  unfold parseStoryText
  simp [hstrip, hsw, hload]

theorem parseStoryText_encode_fenced (ss : List (List Char)) (lang : List Char)
    (hsafe : ss.all (fun s => s.all safeChar) = true) (hlang : ('\n') ∉ lang) :
    parseStoryText (fenceWrap lang (jsonEncodeArr ss)) = .ok ss := by
  have hWs : fenceWrap lang (jsonEncodeArr ss)
      = (btick :: btick :: btick :: lang)
          ++ '\n' :: (jsonEncodeArr ss ++ '\n' :: fenceChars) := by
    simp [fenceWrap, fenceChars]
  have hna : ('\n') ∉ (btick :: btick :: btick :: lang) := by
    simp only [List.mem_cons, not_or]
    exact ⟨by decide, by decide, by decide, hlang⟩
  have hstrip : pyStrip (fenceWrap lang (jsonEncodeArr ss)) = fenceWrap lang (jsonEncodeArr ss) := by
    apply @pyStrip_eq_self_of (fenceWrap lang (jsonEncodeArr ss)) btick btick
    · rw [hWs]; rfl
    · decide
    · have hWe : fenceWrap lang (jsonEncodeArr ss)
          = (fenceChars ++ lang ++ '\n' :: (jsonEncodeArr ss ++ '\n' :: [btick, btick]))
              ++ [btick] := by
        simp [fenceWrap, fenceChars]
      rw [hWe]
      exact List.getLast?_concat _
    · decide
  have hstart : pyStartsWith fenceChars (fenceWrap lang (jsonEncodeArr ss)) = true := by
    rw [hWs]
    show pyStartsWith fenceChars (btick :: btick :: btick :: (lang ++ _)) = true
    simp [pyStartsWith, fenceChars, List.isPrefixOf]
  have hsplit : pySplitOnceAfter nlChars (fenceWrap lang (jsonEncodeArr ss))
      = some (jsonEncodeArr ss ++ '\n' :: fenceChars) := by
    unfold pySplitOnceAfter
    rw [hWs, show nlChars = ['\n'] from rfl,
      findSplit_single_append (jsonEncodeArr ss ++ '\n' :: fenceChars) hna]
    rfl
  have hrsplit : pyRsplitBefore fenceChars (jsonEncodeArr ss ++ '\n' :: fenceChars)
      = jsonEncodeArr ss ++ ['\n'] := pyRsplitBefore_trailing_fence _
  have hload : jsonLoadsStrList (jsonEncodeArr ss ++ ['\n']) = .ok ss :=
    jsonLoads_encode_trailing ss ['\n'] hsafe (by decide)
  unfold parseStoryText
  simp [hstrip, hstart, hsplit, hrsplit, hload]

/-- Claim C5: for every JSON array of strings (given by its canonical
text over unescaped characters), parsing the story response consisting
of that array wrapped in a fenced code block (three backticks and a
newline-free language tag on the first line, the array, a closing fence
on its own line) yields the same ordered sentence sequence as parsing
the unwrapped array text directly — namely the array itself. -/
theorem fence_wrap_parse_equiv (ss : List (List Char)) (lang : List Char)
    (hsafe : ss.all (fun s => s.all safeChar) = true) (hlang : ('\n') ∉ lang) :
    parseStoryText (fenceWrap lang (jsonEncodeArr ss)) = .ok ss
      ∧ parseStoryText (jsonEncodeArr ss) = .ok ss :=
  ⟨parseStoryText_encode_fenced ss lang hsafe hlang, parseStoryText_encode_plain ss hsafe⟩

/-- Witness for C5 at the concrete story array
`["Newton saw an apple fall."]` and language tag `json`. -/
theorem fence_wrap_parse_equiv_witness :
    ([cs ("Newton saw an apple fall.")].all (fun s => s.all safeChar) = true)
      ∧ ('\n') ∉ cs ("json")
      ∧ (parseStoryText (fenceWrap (cs ("json")) (jsonEncodeArr [cs ("Newton saw an apple fall.")]))
            = .ok [cs ("Newton saw an apple fall.")]
          ∧ parseStoryText (jsonEncodeArr [cs ("Newton saw an apple fall.")])
            = .ok [cs ("Newton saw an apple fall.")]) :=
  ⟨by decide, by decide,
    fence_wrap_parse_equiv [cs ("Newton saw an apple fall.")] (cs ("json")) (by decide) (by decide)⟩

/-- Environment whose story response is not valid JSON. -/
def envParseErr : Env :=
  { apiKey := some (cs ("key")),
    storyResponseText := cs ("this is not json"),
    imageResponses := fun _ => .ok [],
    fileSize := fun _ => none }

/-- Claim C6: when the story response text, after stripping and
best-effort fence unwrapping, is not valid JSON, the parse failure
propagates uncaught through `create_storybook`: the run aborts with the
raised error and the effect trace — exactly the directory creation, the
progress print and the one text-generation call — contains no manifest
write. -/
theorem story_parse_error_aborts_run (env : Env) (hk : keyFalsy env = false)
    (hparse : parseStoryText env.storyResponseText = .error .jsonError) :
    (create_storybook env).1 = .raised .jsonError
      ∧ (create_storybook env).2
          = [.mkdirOutput, .print (cs ("Generating story text...")), .netTextCall STORY_TEMPLATE]
      ∧ ∀ sb, Effect.writeManifest sb ∉ (create_storybook env).2 := by
  have hgs : generate_story env
      = (.error .jsonError,
          [.print (cs ("Generating story text...")), .netTextCall STORY_TEMPLATE]) := by
    unfold generate_story
    rw [hparse]
  refine ⟨by simp [create_storybook, hk, hgs], by simp [create_storybook, hk, hgs], ?_⟩
  intro sb
  simp [create_storybook, hk, hgs]

/-- Witness for C6: a run on a non-JSON story response aborts with the
JSON error and writes nothing. -/
theorem story_parse_error_aborts_run_witness :
    keyFalsy envParseErr = false
      ∧ parseStoryText envParseErr.storyResponseText = .error .jsonError
      ∧ (create_storybook envParseErr).1 = .raised .jsonError :=
  ⟨by decide, by decide,
    (story_parse_error_aborts_run envParseErr (by decide) (by decide)).1⟩

/-- Environment whose story response starts with a fence but has no
newline at all. -/
def envFenceNoNewline : Env :=
  { apiKey := some (cs ("key")),
    storyResponseText := cs ("```json [1]"),
    imageResponses := fun _ => .ok [],
    fileSize := fun _ => none }

/-- Claim C10: for story response texts that begin with three backticks
but contain no newline, the fence-unwrapping step raises the
`IndexError` of `text.split("\n", 1)[1]` before JSON parsing is ever
attempted, and that exception propagates uncaught out of the run. -/
theorem fence_without_newline_raises_indexerror (env : Env) (hk : keyFalsy env = false)
    (hfence : pyStartsWith fenceChars (pyStrip env.storyResponseText) = true)
    (hnl : ('\n') ∉ pyStrip env.storyResponseText) :
    parseStoryText env.storyResponseText = .error .indexError
      ∧ (create_storybook env).1 = .raised .indexError := by
  have hsplit : pySplitOnceAfter nlChars (pyStrip env.storyResponseText) = none := by
    unfold pySplitOnceAfter
    rw [show nlChars = ['\n'] from rfl, findSplit_single_not_mem hnl]
    rfl
  have hparse : parseStoryText env.storyResponseText = .error .indexError := by
    unfold parseStoryText
    simp [hfence, hsplit]
  have hgs : generate_story env
      = (.error .indexError,
          [.print (cs ("Generating story text...")), .netTextCall STORY_TEMPLATE]) := by
    unfold generate_story
    rw [hparse]
  exact ⟨hparse, by simp [create_storybook, hk, hgs]⟩

/-- Witness for C10 at the concrete one-line response
beginning with three backticks. -/
theorem fence_without_newline_raises_indexerror_witness :
    keyFalsy envFenceNoNewline = false
      ∧ pyStartsWith fenceChars (pyStrip envFenceNoNewline.storyResponseText) = true
      ∧ ('\n') ∉ pyStrip envFenceNoNewline.storyResponseText
      ∧ (parseStoryText envFenceNoNewline.storyResponseText = .error .indexError
          ∧ (create_storybook envFenceNoNewline).1 = .raised .indexError) :=
  ⟨by decide, by decide, by decide,
    fence_without_newline_raises_indexerror envFenceNoNewline (by decide) (by decide) (by decide)⟩

/-! ## Word-extraction lemmas -/

theorem removeChain_eq_stripPunct (s : List Char) :
    pyRemoveChar '?' (pyRemoveChar '!' (pyRemoveChar ',' (pyRemoveChar '.' s))) = stripPunct s := by
  induction s with
  | nil => rfl
  | cons c rest ih =>
    by_cases h1 : c = '.' <;> by_cases h2 : c = ',' <;> by_cases h3 : c = '!'
      <;> by_cases h4 : c = '?'
      <;> simp [pyRemoveChar, stripPunct, List.filter_cons, h1, h2, h3, h4] at ih ⊢
      <;> simp [ih]

theorem pyWords_eq_split_stripPunct (s : List Char) :
    pyWords s = pySplitWs (stripPunct s) := by
  unfold pyWords
  rw [removeChain_eq_stripPunct]

theorem splitWsAux_single (w : List Char) : ∀ (acc : List Char),
    (∀ c ∈ w, isPyWs c = false) →
    splitWsAux w acc = if (acc.reverse ++ w) = [] then [] else [acc.reverse ++ w] := by
  induction w with
  | nil =>
    intro acc _
    simp only [splitWsAux, List.append_nil]
    by_cases h : acc = [] <;> simp [h]
  | cons c w' ih =>
    intro acc hw
    have hc : isPyWs c = false := hw c (List.mem_cons_self c w')
    have hw' : ∀ x ∈ w', isPyWs x = false := fun x hx => hw x (List.mem_cons_of_mem c hx)
    simp only [splitWsAux, hc, Bool.false_eq_true, if_false]
    rw [ih (c :: acc) hw']
    simp [List.reverse_cons, List.append_assoc]

theorem pySplitWs_single_token (w : List Char) (hne : w ≠ [])
    (hw : ∀ c ∈ w, isPyWs c = false) : pySplitWs w = [w] := by
  unfold pySplitWs
  rw [splitWsAux_single w [] hw]
  simp [hne]

theorem splitWsAux_tokens (s : List Char) : ∀ (acc w : List Char),
    (∀ c ∈ acc, isPyWs c = false) → w ∈ splitWsAux s acc →
    w ≠ [] ∧ (∀ c ∈ w, isPyWs c = false) ∧ (∀ c ∈ w, c ∈ s ∨ c ∈ acc) := by
  induction s with
  | nil =>
    intro acc w hacc hw
    by_cases h : acc = []
    · simp [splitWsAux, h] at hw
    · simp only [splitWsAux, h, if_false, List.mem_singleton] at hw
      subst hw
      refine ⟨by simpa using h, ?_, ?_⟩
      · intro c hc; exact hacc c (List.mem_reverse.mp hc)
      · intro c hc; exact Or.inr (List.mem_reverse.mp hc)
  | cons c rest ih =>
    intro acc w hacc hw
    by_cases hcws : isPyWs c = true
    · by_cases hacc0 : acc = []
      · simp only [splitWsAux, hcws, hacc0, if_true] at hw
        obtain ⟨h1, h2, h3⟩ := ih [] w (by simp) hw
        refine ⟨h1, h2, fun c2 hc2 => ?_⟩
        rcases h3 c2 hc2 with h | h
        · exact Or.inl (List.mem_cons_of_mem c h)
        · exact absurd h (by simp)
      · simp only [splitWsAux, hcws, hacc0, if_true, if_false] at hw
        rcases List.mem_cons.mp hw with heq | hmem
        · subst heq
          refine ⟨by simpa using hacc0, ?_, ?_⟩
          · intro c2 hc2; exact hacc c2 (List.mem_reverse.mp hc2)
          · intro c2 hc2; exact Or.inr (List.mem_reverse.mp hc2)
        · obtain ⟨h1, h2, h3⟩ := ih [] w (by simp) hmem
          refine ⟨h1, h2, fun c2 hc2 => ?_⟩
          rcases h3 c2 hc2 with h | h
          · exact Or.inl (List.mem_cons_of_mem c h)
          · exact absurd h (by simp)
    · have hcf : isPyWs c = false := by simpa using hcws
      simp only [splitWsAux, hcf, Bool.false_eq_true, if_false] at hw
      have hacc' : ∀ x ∈ (c :: acc), isPyWs x = false := by
        intro x hx
        rcases List.mem_cons.mp hx with h | h
        · exact h ▸ hcf
        · exact hacc x h
      obtain ⟨h1, h2, h3⟩ := ih (c :: acc) w hacc' hw
      refine ⟨h1, h2, fun c2 hc2 => ?_⟩
      rcases h3 c2 hc2 with h | h
      · exact Or.inl (List.mem_cons_of_mem c h)
      · rcases List.mem_cons.mp h with h' | h'
        · exact Or.inl (h' ▸ List.mem_cons_self c rest)
        · exact Or.inr h'

theorem pyWords_token_mem (s w : List Char) (hw : w ∈ pyWords s) :
    w ≠ [] ∧ (∀ c ∈ w, isPyWs c = false) ∧ (∀ c ∈ w, c ∈ stripPunct s) := by
  rw [pyWords_eq_split_stripPunct] at hw
  have hprops := splitWsAux_tokens (stripPunct s) [] w (by simp) hw
  refine ⟨hprops.1, hprops.2.1, fun c hc => ?_⟩
  rcases hprops.2.2 c hc with h | h
  · exact h
  · exact absurd h (by simp)

theorem pyWords_idem (s w : List Char) (hw : w ∈ pyWords s) : pyWords w = [w] := by
  obtain ⟨h1, h2, h3⟩ := pyWords_token_mem s w hw
  have hsp : stripPunct w = w := by
    apply List.filter_eq_self.mpr
    intro a ha
    exact (List.mem_filter.mp (h3 a ha)).2
  rw [pyWords_eq_split_stripPunct, hsp]
  exact pySplitWs_single_token w h1 h2

/-- Claim C2: the derived word list is the sentence with every
occurrence of the period, comma, exclamation and question mark removed
and the result split on whitespace; the words of
`"Newton saw an apple fall."` are the expected five tokens with no
trailing period; and extraction applied to an already-extracted word
yields that word alone (idempotence). -/
theorem words_extraction_spec :
    pyWords (cs ("Newton saw an apple fall."))
        = [cs ("Newton"), cs ("saw"), cs ("an"), cs ("apple"), cs ("fall")]
      ∧ (∀ s, pyWords s = pySplitWs (stripPunct s))
      ∧ (∀ s w, w ∈ pyWords s → pyWords w = [w]) :=
  ⟨by decide, pyWords_eq_split_stripPunct, pyWords_idem⟩

/-- Witness for C2: a concrete membership fact fed through the
idempotence part of the claim. -/
theorem words_extraction_spec_witness :
    cs ("Go") ∈ pyWords (cs ("Go now!")) ∧ pyWords (cs ("Go")) = [cs ("Go")] :=
  ⟨by decide, words_extraction_spec.2.2 (cs ("Go now!")) (cs ("Go")) (by decide)⟩

/-! ## Image-generation lemmas -/

theorem imageLoop_firstInline (parts : List RespPart) (index : Nat) :
    (firstInline parts = none →
      imageLoop parts index = (.error (noImageMsg (index + 1)), []))
    ∧ (∀ d, firstInline parts = some d →
        (decodePayload d = none → imageLoop parts index = (.error b64ErrMsg, []))
        ∧ (∀ data, decodePayload d = some data →
            imageLoop parts index
              = (.ok (sceneFileName (index + 1)),
                 [.writeImage (imagePathChars (index + 1)) data,
                  .print (cs ("  Saved: ") ++ imagePathChars (index + 1) ++ cs (" (")
                    ++ natToChars data.length ++ cs (" bytes)"))]))) := by
  induction parts with
  | nil =>
    refine ⟨fun _ => rfl, fun d hd => ?_⟩
    simp [firstInline] at hd
  | cons p rest ih =>
    cases hinl : p.inline_data with
    | none =>
      constructor
      · intro h
        simp only [firstInline, hinl] at h
        simp only [imageLoop, hinl]
        exact ih.1 h
      · intro d hd
        simp only [firstInline, hinl] at hd
        simp only [imageLoop, hinl]
        exact ih.2 d hd
    | some d0 =>
      constructor
      · intro h
        simp [firstInline, hinl] at h
      · intro d hd
        simp only [firstInline, hinl, Option.some.injEq] at hd
        subst hd
        constructor
        · intro hdec
          simp only [imageLoop, hinl, hdec]
        · intro data hdec
          simp only [imageLoop, hinl, hdec]

theorem digitChar_ne_slash (d : Nat) (hd : d < 10) : digitChar d ≠ '/' := by
  interval_cases d <;> decide

theorem natToCharsAux_no_slash (fuel : Nat) : ∀ n, ('/') ∉ natToCharsAux fuel n := by
  induction fuel with
  | zero => intro n; simp [natToCharsAux]
  | succ f ih =>
    intro n
    by_cases h : n < 10
    · simp only [natToCharsAux, if_pos h, List.mem_singleton]
      intro hc
      exact digitChar_ne_slash n h hc.symm
    · simp only [natToCharsAux, if_neg h, List.mem_append, List.mem_singleton]
      rintro (hc | hc)
      · exact ih (n / 10) hc
      · exact digitChar_ne_slash (n % 10) (Nat.mod_lt _ (by omega)) hc.symm

theorem sceneFileName_no_slash (n : Nat) : ('/') ∉ sceneFileName n := by
  unfold sceneFileName natToChars
  simp only [List.mem_append]
  rintro ((hc | hc) | hc)
  · exact absurd hc (by decide)
  · exact natToCharsAux_no_slash (n + 1) n hc
  · exact absurd hc (by decide)

/-- Claim C8: the image generator scans the response parts in order and
uses the first part with inline data, ignoring all others; a `bytes`
payload is written as-is while a `str` payload goes through base64
decoding; on success it returns the bare filename
`scene_<index+1>.png` (slash-free, not a path) and writes the decoded
bytes; with no inline part it fails with the "image not generated"
error naming page `index + 1`. -/
theorem generate_image_spec (env : Env) (sentence : List Char) (index : Nat)
    (parts : List RespPart) (hresp : env.imageResponses index = .ok parts) :
    (firstInline parts = none →
        (generate_image env sentence index).1 = .error (noImageMsg (index + 1)))
      ∧ (∀ d data, firstInline parts = some d → decodePayload d = some data →
          (generate_image env sentence index).1 = .ok (sceneFileName (index + 1))
            ∧ Effect.writeImage (imagePathChars (index + 1)) data
                ∈ (generate_image env sentence index).2)
      ∧ (∀ d, firstInline parts = some d → decodePayload d = none →
          (generate_image env sentence index).1 = .error b64ErrMsg)
      ∧ (∀ b, decodePayload (Payload.bytes b) = some b)
      ∧ (∀ s2, decodePayload (Payload.str s2) = b64decode s2)
      ∧ ('/') ∉ sceneFileName (index + 1) := by
  refine ⟨?_, ?_, ?_, fun b => rfl, fun s2 => rfl, sceneFileName_no_slash (index + 1)⟩
  · intro h
    have hl := (imageLoop_firstInline parts index).1 h
    simp [generate_image, hresp, hl]
  · intro d data hfi hdec
    have hl := ((imageLoop_firstInline parts index).2 d hfi).2 data hdec
    constructor
    · simp [generate_image, hresp, hl]
    · simp [generate_image, hresp, hl]
  · intro d hfi hdec
    have hl := ((imageLoop_firstInline parts index).2 d hfi).1 hdec
    simp [generate_image, hresp, hl]

/-- Environment whose image responses carry a text part followed by an
inline `bytes` part. -/
def envImageOk : Env :=
  { apiKey := some (cs ("key")),
    storyResponseText := cs ("[\"Sun is up.\"]"),
    imageResponses := fun _ =>
      .ok [{ text := some (cs ("caption")), inline_data := none },
           { text := none, inline_data := some (.bytes [1, 2, 3]) }],
    fileSize := fun _ => none }

/-- Witness for C8: on a response with a leading text part and one
inline `bytes` part, the generator writes those bytes and returns
`scene_1.png`. -/
theorem generate_image_spec_witness :
    envImageOk.imageResponses 0
        = .ok [{ text := some (cs ("caption")), inline_data := none },
               { text := none, inline_data := some (.bytes [1, 2, 3]) }]
      ∧ firstInline [{ text := some (cs ("caption")), inline_data := none },
               { text := none, inline_data := some (.bytes [1, 2, 3]) }]
          = some (.bytes [1, 2, 3])
      ∧ decodePayload (.bytes [1, 2, 3]) = some [1, 2, 3]
      ∧ ((generate_image envImageOk (cs ("Sun is up.")) 0).1 = .ok (sceneFileName 1)
          ∧ Effect.writeImage (imagePathChars 1) [1, 2, 3]
              ∈ (generate_image envImageOk (cs ("Sun is up.")) 0).2) :=
  ⟨rfl, by decide, by decide,
    (generate_image_spec envImageOk (cs ("Sun is up.")) 0 _ rfl).2.1
      (.bytes [1, 2, 3]) [1, 2, 3] (by decide) (by decide)⟩

/-! ## Orchestration-loop lemmas -/

theorem processLoop_fst (env : Env) (n : Nat) : ∀ (story : List (List Char)) (i : Nat),
    (processLoop env n i story).1 = pagesSpec env i story := by
  intro story
  induction story with
  | nil => intro i; rfl
  | cons s rest ih =>
    intro i
    simp only [processLoop, pagesSpec, pageFor]
    rw [ih (i + 1)]

theorem pagesSpec_length (env : Env) : ∀ (story : List (List Char)) (i : Nat),
    (pagesSpec env i story).length = story.length := by
  intro story
  induction story with
  | nil => intro i; rfl
  | cons s rest ih => intro i; simp [pagesSpec, ih (i + 1)]

theorem pagesSpec_get (env : Env) : ∀ (story : List (List Char)) (i k : Nat)
    (hk : k < story.length) (hk2 : k < (pagesSpec env i story).length),
    (pagesSpec env i story).get ⟨k, hk2⟩ = pageFor env (i + k) (story.get ⟨k, hk⟩) := by
  intro story
  induction story with
  | nil => intro i k hk hk2; simp at hk
  | cons s rest ih =>
    intro i k hk hk2
    cases k with
    | zero => simp [pagesSpec]
    | succ k' =>
      simp only [pagesSpec, List.get_cons_succ]
      rw [ih (i + 1) k' (by simpa using hk) (by simpa [pagesSpec] using hk2)]
      rw [show i + (k' + 1) = (i + 1) + k' by omega]

/-- The manifest a successful run builds. -/
def mkManifest (env : Env) (story : List (List Char)) : Storybook :=
  { title := titleChars, description := descChars, pages := pagesSpec env 0 story }

theorem create_storybook_ok (env : Env) (story : List (List Char))
    (hk : keyFalsy env = false)
    (hparse : parseStoryText env.storyResponseText = .ok story) :
    (create_storybook env).1 = .ok (mkManifest env story) := by
  obtain ⟨effs, hgs⟩ : ∃ effs, generate_story env = (.ok story, effs) := by
    unfold generate_story
    rw [hparse]
    exact ⟨_, rfl⟩
  simp [create_storybook, hk, hgs, mkManifest, processLoop_fst]

theorem imageLoop_ok_name : ∀ (parts : List RespPart) (i : Nat) (f : List Char),
    (imageLoop parts i).1 = .ok f → f = sceneFileName (i + 1) := by
  intro parts
  induction parts with
  | nil => intro i f h; simp [imageLoop] at h
  | cons p rest ih =>
    intro i f h
    cases hinl : p.inline_data with
    | none =>
      simp only [imageLoop, hinl] at h
      exact ih i f h
    | some d =>
      simp only [imageLoop, hinl] at h
      cases hdec : decodePayload d with
      | none => simp only [hdec] at h; simp at h
      | some data =>
        simp only [hdec] at h
        simp only [Except.ok.injEq] at h
        exact h.symm

theorem generate_image_ok_name (env : Env) (s : List Char) (i : Nat) (f : List Char)
    (h : (generate_image env s i).1 = .ok f) : f = sceneFileName (i + 1) := by
  unfold generate_image at h
  cases hresp : env.imageResponses i with
  | error m => rw [hresp] at h; simp at h
  | ok parts =>
    rw [hresp] at h
    exact imageLoop_ok_name parts i f h

/-- Claim C1: when image generation raises any exception for the
sentence at index `i`, the run still completes with one page per
sentence, and page `i` is recorded with page number `i + 1` and a null
image — a per-page image failure never aborts the run. -/
theorem image_failure_records_null_and_continues (env : Env) (story : List (List Char))
    (hk : keyFalsy env = false)
    (hparse : parseStoryText env.storyResponseText = .ok story)
    (i : Nat) (hi : i < story.length) (m : List Char)
    (hfail : (generate_image env (story.get ⟨i, hi⟩) i).1 = .error m) :
    ∃ sb, (create_storybook env).1 = .ok sb
      ∧ sb.pages.length = story.length
      ∧ ∀ h2 : i < sb.pages.length,
          (sb.pages.get ⟨i, h2⟩).page_number = i + 1
            ∧ (sb.pages.get ⟨i, h2⟩).image = none := by
  refine ⟨mkManifest env story, create_storybook_ok env story hk hparse,
    pagesSpec_length env story 0, ?_⟩
  intro h2
  show ((pagesSpec env 0 story).get ⟨i, h2⟩).page_number = i + 1
    ∧ ((pagesSpec env 0 story).get ⟨i, h2⟩).image = none
  rw [pagesSpec_get env story 0 i hi h2]
  simp only [Nat.zero_add]
  refine ⟨rfl, ?_⟩
  unfold pageFor
  rw [hfail]

/-- Environment whose image responses never contain an inline part, so
every image generation raises. -/
def envImageFail : Env :=
  { apiKey := some (cs ("key")),
    storyResponseText := cs ("[\"Aa.\"]"),
    imageResponses := fun _ => .ok [],
    fileSize := fun _ => none }

/-- Witness for C1: with a one-sentence story whose image generation
raises the "no image" error, the run completes and records page 1 with
a null image. -/
theorem image_failure_records_null_and_continues_witness :
    keyFalsy envImageFail = false
      ∧ parseStoryText envImageFail.storyResponseText = .ok [cs ("Aa.")]
      ∧ (generate_image envImageFail (cs ("Aa.")) 0).1 = .error (noImageMsg 1)
      ∧ (∃ sb, (create_storybook envImageFail).1 = .ok sb
          ∧ sb.pages.length = ([cs ("Aa.")] : List (List Char)).length
          ∧ ∀ h2 : 0 < sb.pages.length,
              (sb.pages.get ⟨0, h2⟩).page_number = 1
                ∧ (sb.pages.get ⟨0, h2⟩).image = none) :=
  ⟨by decide, by decide, by decide,
    image_failure_records_null_and_continues envImageFail [cs ("Aa.")]
      (by decide) (by decide) 0 (by decide) (noImageMsg 1) (by decide)⟩

/-- Claim C4: whenever the story generator returns a sentence sequence
and the loop runs, the manifest has exactly one page per sentence,
however many image generations failed. -/
theorem manifest_pages_match_story_length (env : Env) (story : List (List Char))
    (hk : keyFalsy env = false)
    (hparse : parseStoryText env.storyResponseText = .ok story) :
    ∃ sb, (create_storybook env).1 = .ok sb ∧ sb.pages.length = story.length :=
  ⟨mkManifest env story, create_storybook_ok env story hk hparse,
    pagesSpec_length env story 0⟩

/-- Witness for C4: the run on the one-sentence story with failing
images still produces a one-page manifest. -/
theorem manifest_pages_match_story_length_witness :
    keyFalsy envImageFail = false
      ∧ parseStoryText envImageFail.storyResponseText = .ok [cs ("Aa.")]
      ∧ (∃ sb, (create_storybook envImageFail).1 = .ok sb
          ∧ sb.pages.length = ([cs ("Aa.")] : List (List Char)).length) :=
  ⟨by decide, by decide,
    manifest_pages_match_story_length envImageFail [cs ("Aa.")] (by decide) (by decide)⟩

/-- The fixed six-sentence story used as the C3 witness. -/
def storySix : List (List Char) :=
  [cs ("S one."), cs ("S two."), cs ("S three."), cs ("S four."), cs ("S five."), cs ("S six.")]

/-- Environment with a six-sentence story and always-succeeding image
responses. -/
def envSixOk : Env :=
  { apiKey := some (cs ("key")),
    storyResponseText :=
      cs ("[\"S one.\", \"S two.\", \"S three.\", \"S four.\", \"S five.\", \"S six.\"]"),
    imageResponses := fun _ => .ok [{ text := none, inline_data := some (.bytes [9]) }],
    fileSize := fun _ => none }

/-- Claim C3: for a six-sentence story whose image generation succeeds
everywhere, the manifest has six pages, page numbers 1..6 in order, and
each page's image is the string `scene_<page_number>.png`. -/
theorem six_sentence_success_manifest (env : Env) (story : List (List Char))
    (hk : keyFalsy env = false)
    (hparse : parseStoryText env.storyResponseText = .ok story)
    (hlen : story.length = 6)
    (hok : ∀ (i : Nat) (h : i < story.length),
      ∃ f, (generate_image env (story.get ⟨i, h⟩) i).1 = .ok f) :
    ∃ sb, (create_storybook env).1 = .ok sb
      ∧ sb.pages.length = 6
      ∧ ∀ (i : Nat) (h2 : i < sb.pages.length),
          (sb.pages.get ⟨i, h2⟩).page_number = i + 1
            ∧ (sb.pages.get ⟨i, h2⟩).image = some (sceneFileName (i + 1)) := by
  have hL := pagesSpec_length env story 0
  refine ⟨mkManifest env story, create_storybook_ok env story hk hparse, by
    show (pagesSpec env 0 story).length = 6
    omega, ?_⟩
  intro i h2
  have h2' : i < (pagesSpec env 0 story).length := h2
  have hi : i < story.length := by omega
  show ((pagesSpec env 0 story).get ⟨i, h2⟩).page_number = i + 1
    ∧ ((pagesSpec env 0 story).get ⟨i, h2⟩).image = some (sceneFileName (i + 1))
  rw [pagesSpec_get env story 0 i hi h2]
  obtain ⟨f, hf⟩ := hok i hi
  have hname := generate_image_ok_name env _ i f hf
  subst hname
  simp only [Nat.zero_add]
  refine ⟨rfl, ?_⟩
  unfold pageFor
  rw [hf]

/-- Witness for C3 on the concrete six-sentence environment. -/
theorem six_sentence_success_manifest_witness :
    keyFalsy envSixOk = false
      ∧ parseStoryText envSixOk.storyResponseText = .ok storySix
      ∧ storySix.length = 6
      ∧ (∃ sb, (create_storybook envSixOk).1 = .ok sb
          ∧ sb.pages.length = 6
          ∧ ∀ (i : Nat) (h2 : i < sb.pages.length),
              (sb.pages.get ⟨i, h2⟩).page_number = i + 1
                ∧ (sb.pages.get ⟨i, h2⟩).image = some (sceneFileName (i + 1))) :=
  ⟨by decide, by decide, by decide,
    six_sentence_success_manifest envSixOk storySix (by decide) (by decide) (by decide)
      (fun i h => ⟨sceneFileName (i + 1), rfl⟩)⟩

/-! ## Credential check (C7) -/

/-- Claim C7: with the API credential absent, `create_storybook`
reports the human-readable error and usage hint and returns
immediately: its whole effect trace is those two prints, with no
network call and no filesystem activity (the directory creation and the
client construction both come later in the source). -/
theorem missing_credential_fails_fast (env : Env) (h : env.apiKey = none) :
    (create_storybook env).1 = .configError
      ∧ (create_storybook env).2
          = [.print (cs ("ERROR: Please set GEMINI_API_KEY environment variable")),
             .print (cs ("Usage: GEMINI_API_KEY=your_key python generate_storybook.py"))]
      ∧ ∀ e ∈ (create_storybook env).2, isNetOrFs e = false := by
  have hk : keyFalsy env = true := by simp [keyFalsy, h]
  refine ⟨by simp [create_storybook, hk], by simp [create_storybook, hk], ?_⟩
  intro e he
  simp only [create_storybook, hk, if_true] at he
  simp only [List.mem_cons, List.mem_singleton] at he
  rcases he with h1 | h1 | h1
  · subst h1; rfl
  · subst h1; rfl
  · simp at h1

/-- Environment with no credential at all. -/
def envNoKey : Env :=
  { apiKey := none,
    storyResponseText := cs (""),
    imageResponses := fun _ => .ok [],
    fileSize := fun _ => none }

/-- Witness for C7 on the credential-free environment. -/
theorem missing_credential_fails_fast_witness :
    envNoKey.apiKey = none
      ∧ (create_storybook envNoKey).1 = .configError
      ∧ (create_storybook envNoKey).2
          = [.print (cs ("ERROR: Please set GEMINI_API_KEY environment variable")),
             .print (cs ("Usage: GEMINI_API_KEY=your_key python generate_storybook.py"))] :=
  ⟨rfl, (missing_credential_fails_fast envNoKey rfl).1,
    (missing_credential_fails_fast envNoKey rfl).2.1⟩

/-! ## Scheduling of the fixed sleeps (C9) -/

theorem filter_false_map {α : Type} (p : Effect → Bool) (f : α → Effect) (l : List α)
    (hf : ∀ a, p (f a) = false) : (l.map f).filter p = [] := by
  induction l with
  | nil => rfl
  | cons a rest ih => simp [List.filter_cons, hf a, ih]

theorem generate_story_snd_filter_markers (env : Env) :
    (generate_story env).2.filter isMarker = [] := by
  unfold generate_story
  cases hp : parseStoryText env.storyResponseText with
  | error e => simp [List.filter_cons, isMarker]
  | ok story =>
    simp only [List.filter_append, List.filter_cons]
    rw [filter_false_map isMarker (fun p => Effect.print (sentenceDiagMsg (p.1 + 1) p.2))
      story.enum (fun a => rfl)]
    rfl

theorem imageLoop_filter_markers : ∀ (parts : List RespPart) (i : Nat),
    (imageLoop parts i).2.filter isMarker = [] := by
  intro parts
  induction parts with
  | nil => intro i; rfl
  | cons p rest ih =>
    intro i
    cases hinl : p.inline_data with
    | none =>
      simp only [imageLoop, hinl]
      exact ih i
    | some d =>
      cases hdec : decodePayload d with
      | none => simp [imageLoop, hinl, hdec]
      | some data => simp [imageLoop, hinl, hdec, List.filter_cons, isMarker]

theorem generate_image_filter_markers (env : Env) (s : List Char) (i : Nat) :
    (generate_image env s i).2.filter isMarker = [.netImageCall (imagePrompt s) i] := by
  unfold generate_image
  cases hresp : env.imageResponses i with
  | error m => simp [List.filter_cons, isMarker]
  | ok parts =>
    simp only [List.filter_append, List.filter_cons]
    rw [imageLoop_filter_markers parts i]
    rfl

theorem processLoop_filter_markers (env : Env) (n : Nat) : ∀ (story : List (List Char)) (i : Nat),
    (processLoop env n i story).2.filter isMarker = markerBlocks i story := by
  intro story
  induction story with
  | nil => intro i; rfl
  | cons s rest ih =>
    intro i
    have hwarn : ∀ (r : Except (List Char) (List Char)),
        (match r with
          | .ok _ => ([] : List Effect)
          | .error m => [.print (cs ("  Warning: Could not generate image: ") ++ m)]).filter
            isMarker = [] := by
      intro r
      cases r with
      | ok f => rfl
      | error m => rfl
    simp only [processLoop, markerBlocks, List.filter_cons, List.filter_append]
    rw [generate_image_filter_markers env s i, hwarn, ih (i + 1)]
    rfl

theorem pageReport_no_marker (env : Env) (page : Page) :
    ∀ e ∈ pageReport env page, isMarker e = false := by
  intro e he
  unfold pageReport at he
  rcases List.mem_append.mp he with h | h
  · simp only [List.mem_cons, List.mem_singleton] at h
    rcases h with h1 | h1 | h1 | h1 | h1
    · subst h1; rfl
    · subst h1; rfl
    · subst h1; rfl
    · subst h1; rfl
    · simp at h1
  · cases himg : page.image with
    | none => simp only [himg] at h; simp at h
    | some img =>
      simp only [himg] at h
      by_cases hie : img = []
      · simp only [if_pos hie] at h; simp at h
      · simp only [if_neg hie] at h
        cases hfs : env.fileSize (OUTPUT_DIR ++ '/' :: img) with
        | some sz =>
          simp only [hfs, List.mem_singleton] at h
          subst h; rfl
        | none =>
          simp only [hfs, List.mem_singleton] at h
          subst h; rfl

theorem pagesReport_filter_markers (env : Env) : ∀ (pages : List Page),
    (pagesReport env pages).filter isMarker = [] := by
  intro pages
  induction pages with
  | nil => rfl
  | cons p rest ih =>
    simp only [pagesReport, List.filter_append, ih, List.append_nil]
    exact List.filter_eq_nil_iff.mpr (fun e he => by simp [pageReport_no_marker env p e he])

theorem reportEffs_filter_markers (env : Env) (sb : Storybook) :
    (reportEffs env sb).filter isMarker = [] := by
  unfold reportEffs
  simp only [List.filter_cons, List.filter_append]
  rw [pagesReport_filter_markers env sb.pages]
  rfl

theorem marker_and_sleep (e : Effect) : (isSleepEff e && isMarker e) = isSleepEff e := by
  cases e <;> rfl

theorem markerBlocks_sleep_count : ∀ (story : List (List Char)) (i : Nat),
    ((markerBlocks i story).filter isSleepEff).length = story.length := by
  intro story
  induction story with
  | nil => intro i; rfl
  | cons s rest ih =>
    intro i
    simp only [markerBlocks, List.filter_cons]
    simp only [show isSleepEff (Effect.netImageCall (imagePrompt s) i) = false from rfl,
      show isSleepEff (Effect.sleep 2) = true from rfl]
    simp [ih (i + 1)]

/-- Claim C9 as amended: the loop's scheduling trace consists, for
every page `i` of the story — the final page included — of the image
request for page `i` followed by exactly one fixed two-second sleep, so
consecutive pages are separated by exactly one sleep and the total
number of sleeps equals the number of sentences (not one less). -/
theorem fixed_sleep_after_every_page (env : Env) (story : List (List Char))
    (hk : keyFalsy env = false)
    (hparse : parseStoryText env.storyResponseText = .ok story) :
    (create_storybook env).2.filter isMarker = markerBlocks 0 story
      ∧ ((create_storybook env).2.filter isSleepEff).length = story.length := by
  obtain ⟨effs, hgs⟩ : ∃ effs, generate_story env = (.ok story, effs) := by
    unfold generate_story
    rw [hparse]
    exact ⟨_, rfl⟩
  have heffs : effs.filter isMarker = [] := by
    have h := generate_story_snd_filter_markers env
    rw [hgs] at h
    exact h
  have hwarn : (if story.length < 5 || 6 < story.length
      then [Effect.print (lengthWarnMsg story.length)] else ([] : List Effect)).filter isMarker
      = [] := by
    by_cases hc : (story.length < 5 || 6 < story.length) = true
    · rw [if_pos hc]; rfl
    · rw [if_neg hc]; rfl
  have hmain : (create_storybook env).2.filter isMarker = markerBlocks 0 story := by
    simp only [create_storybook, hk, Bool.false_eq_true, if_false, hgs]
    simp only [List.filter_cons, List.filter_append, heffs, hwarn,
      processLoop_filter_markers env story.length story 0,
      reportEffs_filter_markers]
    simp [isMarker]
  refine ⟨hmain, ?_⟩
  have hsub : (create_storybook env).2.filter isSleepEff
      = ((create_storybook env).2.filter isMarker).filter isSleepEff := by
    rw [List.filter_filter]
    have hfun : (fun a => isSleepEff a && isMarker a) = isSleepEff := by
      funext e
      exact marker_and_sleep e
    rw [hfun]
  rw [hsub, hmain]
  exact markerBlocks_sleep_count story 0

/-- The two-sentence story used for the C9 counterexample. -/
def storyTwo : List (List Char) := [cs ("Aa."), cs ("Bb.")]

/-- Environment running the two-sentence story with succeeding
images. -/
def envTwo : Env :=
  { apiKey := some (cs ("k")),
    storyResponseText := cs ("[\"Aa.\", \"Bb.\"]"),
    imageResponses := fun _ => .ok [{ text := none, inline_data := some (.bytes [7]) }],
    fileSize := fun _ => none }

/-- Counterexample to C9 as stated: on a completed two-sentence run the
trace holds two sleeps, not one — `time.sleep(2)` also runs after the
final sentence, as the trailing sleep in the marker trace shows. -/
theorem fixed_sleep_after_every_page_counterexample :
    ((create_storybook envTwo).2.filter isSleepEff).length = storyTwo.length
      ∧ ((create_storybook envTwo).2.filter isSleepEff).length ≠ storyTwo.length - 1
      ∧ ((create_storybook envTwo).2.filter isMarker).getLast? = some (.sleep 2) :=
  ⟨by decide, by decide, by decide⟩

/-- Witness for the amended C9 on the two-sentence environment. -/
theorem fixed_sleep_after_every_page_witness :
    keyFalsy envTwo = false
      ∧ parseStoryText envTwo.storyResponseText = .ok storyTwo
      ∧ ((create_storybook envTwo).2.filter isMarker = markerBlocks 0 storyTwo
          ∧ ((create_storybook envTwo).2.filter isSleepEff).length = storyTwo.length) :=
  ⟨by decide, by decide, fixed_sleep_after_every_page envTwo storyTwo (by decide) (by decide)⟩
